import Mathlib

/-!
Shallow embedding of `src/hooks/dx12.rs` (the hudhook DirectX 12 hook).

The stateful Rust code is translated into pure Lean functions over explicit
state records.  COM objects are represented by the data the hook actually
inspects (queue descriptor class, swap-chain id, window-procedure pointer as a
`Nat`); calls that Rust performs purely for their side effects (barriers,
command-list submission, trampoline invocations, log lines) are recorded as
`Action`s in an explicit trace so that ordering and presence of those effects
can be stated.  Rust panics (`expect`/`unwrap`/slice indexing) are modelled
with `Except`.  The two genuinely concurrent protocols — the spin-guard
quiescence protocol used by `unhook`, and the per-frame-context GPU fence
protocol — are modelled as small-step machines (`ustep`/`urun` and
`fcstep`/`fcrun`) whose label lists represent thread interleavings.
-/

namespace HudhookDx12

/-- Model of an `ID3D12CommandQueue` as seen by the hook: `qtype` is the
queue descriptor class `desc.Type.0` (`0` is `D3D12_COMMAND_LIST_TYPE_DIRECT`,
the primary graphics class); `qid` distinguishes distinct queue objects. -/
structure CommandQueue where
  qtype : Nat
  qid : Nat
deriving DecidableEq

/-- Model of `FrameContext` (dx12.rs lines 177-201).  The COM resource
handles (`back_buffer`, `desc_handle`, `command_allocator`, `fence`,
`fence_event`) are opaque to every claim and are not modelled; `fence_val` is
the field the synchronization logic manipulates.  GPU-side fence completion
state is modelled separately by `FcState`. -/
structure FrameContext where
  fence_val : Nat
deriving DecidableEq

/-- Model of `FrameContext::incr`: `self.fence_val = FENCE_MAX.fetch_add(1)`.
`fenceMax` is the process-wide `FENCE_MAX` counter, a `u64`: `fetch_add`
returns the prior value and stores the increment, wrapping on overflow, so
both the assigned value and the new counter are taken modulo `2 ^ 64`. -/
def FrameContext.incr (fc : FrameContext) (fenceMax : Nat) : FrameContext × Nat :=
  ({ fc with fence_val := fenceMax % 2 ^ 64 }, (fenceMax + 1) % 2 ^ 64)

/-- The blocking condition of `FrameContext::wait_fence`: the render path
blocks on the fence event iff `GetCompletedValue() < fence_val`. -/
def FrameContext.waitBlocks (fc : FrameContext) (completed : Nat) : Bool :=
  decide (completed < fc.fence_val)

/-- Observable effects of the hook code.  Each constructor corresponds to one
call the Rust code performs for its side effect. -/
inductive Action where
  | callTrampolineExec (q : CommandQueue) (numLists : Nat)
  | callTrampolinePresent (swapChain syncInterval flags : Nat)
  | callTrampolineResize (swapChain bufferCount width height newFormat flags : Nat)
  | restoreWndProc (wndProc : Nat)
  | installWndProc (prev : Nat)
  | createFrameContexts (n : Nat)
  | initCallback
  | newFrame
  | renderCallback
  | fenceWait (idx lastVal : Nat)
  | resetAllocator (idx : Nat)
  | resetList (idx : Nat)
  | barrierPresentToTarget
  | omSetRenderTargets (idx : Nat)
  | setDescriptorHeaps
  | renderDrawData (idx : Nat)
  | logDrawError (e : String)
  | barrierTargetToPresent
  | closeList
  | executeOverlayLists (q : CommandQueue)
  | signalFence (q : CommandQueue) (v : Nat)
  | logNullQueue
  | drainDebugMessages
deriving DecidableEq

/-- Model of the `ImguiRenderer` struct (dx12.rs lines 328-338): the fields
the claims mention.  `ctx`, `engine` and the descriptor heaps are opaque to
the claims; `wnd_proc` is the window procedure captured at activation. -/
structure ImguiRenderer where
  commandQueue : Option CommandQueue
  wnd_proc : Nat
  frameContexts : List FrameContext
  swapChain : Nat
deriving DecidableEq

/-- Model of the global singletons (dx12.rs lines 122-175):
`TRAMPOLINE` (present iff the hooks were installed), `IMGUI_RENDER_LOOP`,
`IMGUI_RENDERER`, `COMMAND_QUEUE_GUARD` (a `OnceCell<()>`, modelled as a
`Bool`) and `DXGI_DEBUG_ENABLED`.  The three spin fences are modelled by the
quiescence machine below. -/
structure HookState where
  trampoline : Bool
  renderLoop : Bool
  renderer : Option ImguiRenderer
  commandQueueGuard : Bool
  dxgiDebug : Bool
deriving DecidableEq

/-- A Rust panic message (`expect`, `unwrap`, out-of-bounds indexing). -/
abbrev PanicMsg := String

/-- The closure passed to `COMMAND_QUEUE_GUARD.get_or_try_init` in
`imgui_execute_command_lists_impl` (dx12.rs lines 214-233): if the guard is
already set, nothing happens; otherwise a queue whose descriptor class is not
`DIRECT` is skipped (`Err`), and a `DIRECT` queue is stored into the renderer
(setting the guard) only if the renderer exists. -/
def captureQueue (st : HookState) (q : CommandQueue) : HookState :=
  if st.commandQueueGuard = true then st
  else if q.qtype ≠ 0 then st
  else
    match st.renderer with
    | some r =>
      { st with commandQueueGuard := true,
                renderer := some { r with commandQueue := some q } }
    | none => st

/-- Model of `imgui_execute_command_lists_impl` (dx12.rs lines 203-238).
In the source the guard initialization runs before the `TRAMPOLINE.get()
.expect(..)`; since a panic aborts the process, performing the trampoline
check first is observationally equivalent and is done here so the panic case
carries no state. -/
def imgui_execute_command_lists_impl (st : HookState) (q : CommandQueue)
    (numLists : Nat) : Except PanicMsg (HookState × List Action) :=
  if st.trampoline = true then
    .ok (captureQueue st q, [Action.callTrampolineExec q numLists])
  else
    .error "ID3D12CommandQueue::ExecuteCommandLists trampoline uninitialized"

/-- Environment data consumed by `ImguiRenderer::new`: the swap-chain
descriptor's `BufferCount`, and the window procedure previously installed on
the output window (returned by `SetWindowLongPtrA`). -/
structure NewEnv where
  bufferCount : Nat
  prevWndProc : Nat
deriving DecidableEq

/-- Environment data consumed by one `ImguiRenderer::render` call: the
current back-buffer index returned by `GetCurrentBackBufferIndex`, and the
outcome of `engine.render_draw_data` (`none` = `Ok`, `some e` = `Err(e)`). -/
structure RenderEnv where
  backBufferIdx : Nat
  drawErr : Option String
deriving DecidableEq

/-- Model of `ImguiRenderer::new` (dx12.rs lines 341-462).  Heap, allocator
and engine construction only produce opaque handles; the modelled effects are
the construction of one `FrameContext` per back buffer (each with
`fence_val: 0`), the installation of the window procedure (capturing the
previous one), and the `IMGUI_RENDER_LOOP.get_mut().unwrap().initialize(..)`
call, which panics if the render loop cell is unset. -/
def ImguiRenderer.new (renderLoopSet : Bool) (env : NewEnv) (swapChain : Nat) :
    Except PanicMsg (ImguiRenderer × List Action) :=
  if renderLoopSet then
    .ok ({ commandQueue := none
         , wnd_proc := env.prevWndProc
         , frameContexts := List.replicate env.bufferCount { fence_val := 0 }
         , swapChain := swapChain },
      [Action.createFrameContexts env.bufferCount,
       Action.installWndProc env.prevWndProc,
       Action.initCallback])
  else
    .error "IMGUI_RENDER_LOOP cell not initialized"

/-- Model of `ImguiRenderer::store_swap_chain` (dx12.rs lines 464-470). -/
def ImguiRenderer.store_swap_chain (r : ImguiRenderer) (sc : Option Nat) :
    ImguiRenderer :=
  { r with swapChain := sc.getD r.swapChain }

/-- Model of `ImguiRenderer::render` (dx12.rs lines 472-590).  The
client-rect/cursor block only updates imgui IO state and records no modelled
action.  `self.frame_contexts[idx]` is Rust slice indexing, which panics when
the index is out of bounds; this happens before the null-queue check.  A
`None` `command_queue` logs "Null command queue" and returns early, before
any recording or submission.  On the main path the fence wait, the allocator
and command-list resets, both transition barriers, the draw-data recording
(whose failure is logged and does not abort), the close, the submission and
the fence signal are recorded in source order.  Both exits return `None` in
the source, so no return value is modelled. -/
def ImguiRenderer.render (r : ImguiRenderer) (fenceMax : Nat)
    (swapChainArg : Option Nat) (env : RenderEnv) :
    Except PanicMsg (ImguiRenderer × Nat × List Action) :=
  match (r.store_swap_chain swapChainArg).frameContexts[env.backBufferIdx]? with
  | none => .error "index out of bounds in frame_contexts"
  | some fc =>
    match (r.store_swap_chain swapChainArg).commandQueue with
    | none => .ok (r.store_swap_chain swapChainArg, fenceMax, [Action.logNullQueue])
    | some cq =>
      .ok ({ r.store_swap_chain swapChainArg with
              frameContexts :=
                (r.store_swap_chain swapChainArg).frameContexts.set
                  env.backBufferIdx (fc.incr fenceMax).1 },
        (fc.incr fenceMax).2,
        [Action.newFrame, Action.renderCallback,
         Action.fenceWait env.backBufferIdx fc.fence_val,
         Action.resetAllocator env.backBufferIdx,
         Action.resetList env.backBufferIdx,
         Action.barrierPresentToTarget,
         Action.omSetRenderTargets env.backBufferIdx,
         Action.setDescriptorHeaps,
         Action.renderDrawData env.backBufferIdx]
        ++ (match env.drawErr with
            | some e => [Action.logDrawError e]
            | none => ([] : List Action))
        ++ [Action.barrierTargetToPresent, Action.closeList,
            Action.executeOverlayLists cq,
            Action.signalFence cq (fc.incr fenceMax).1.fence_val])

/-- Model of `ImguiRenderer::cleanup` (dx12.rs lines 592-601): restores the
window procedure captured at activation (`self.wnd_proc`) on the output
window of the stored swap chain. -/
def ImguiRenderer.cleanup (r : ImguiRenderer) (swapChainArg : Option Nat) :
    ImguiRenderer × List Action :=
  (r.store_swap_chain swapChainArg,
   [Action.restoreWndProc (r.store_swap_chain swapChainArg).wnd_proc])

/-- Model of `imgui_dxgi_swap_chain_present_impl` (dx12.rs lines 240-271):
panic if the trampoline cell is unset; lazily construct the renderer
(`IMGUI_RENDERER.get_or_init`), render one frame, invoke the present
trampoline, and drain the DXGI debug queue when the debug flag is set. -/
def imgui_dxgi_swap_chain_present_impl (st : HookState) (fenceMax : Nat)
    (swapChain : Nat) (env : RenderEnv) (newEnv : NewEnv)
    (syncInterval flags : Nat) :
    Except PanicMsg (HookState × Nat × List Action) :=
  if st.trampoline = true then
    match (match st.renderer with
           | some r => Except.ok (r, ([] : List Action))
           | none => ImguiRenderer.new st.renderLoop newEnv swapChain) with
    | .error e => .error e
    | .ok p =>
      match p.1.render fenceMax (some swapChain) env with
      | .error e => .error e
      | .ok p2 =>
        .ok ({ st with renderer := some p2.1 }, p2.2.1,
          p.2 ++ p2.2.2
            ++ [Action.callTrampolinePresent swapChain syncInterval flags]
            ++ (if st.dxgiDebug then [Action.drainDebugMessages] else []))
  else
    .error "IDXGISwapChain::Present trampoline uninitialized"

/-- Model of `imgui_resize_buffers_impl` (dx12.rs lines 273-294): panic if
the trampoline cell is unset; `IMGUI_RENDERER.take()` followed by `cleanup`
when a renderer was present; `COMMAND_QUEUE_GUARD.take()`; then the resize
trampoline with the unmodified arguments. -/
def imgui_resize_buffers_impl (st : HookState)
    (bufferCount width height newFormat flags : Nat) (swapChain : Nat) :
    Except PanicMsg (HookState × List Action) :=
  if st.trampoline = true then
    .ok ({ (match st.renderer with
            | some _ => { st with renderer := none }
            | none => st) with commandQueueGuard := false },
      (match st.renderer with
       | some r => (r.cleanup (some swapChain)).2
       | none => ([] : List Action))
      ++ [Action.callTrampolineResize swapChain bufferCount width height
            newFormat flags])
  else
    .error "IDXGISwapChain3::ResizeBuffer trampoline uninitialized"

/-- Model of the resource-release phase of `Hooks::unhook` (dx12.rs lines
782-809), the code that runs after the three `Fence::wait` calls (those are
modelled by the quiescence machine below): `IMGUI_RENDERER.take()` and
`cleanup(None)` when a renderer was present, `IMGUI_RENDER_LOOP.take()`,
`COMMAND_QUEUE_GUARD.take()`, and clearing the debug flag.  `fenceMax` (the
`FENCE_MAX` static local in `FrameContext::incr`) is untouched. -/
def unhook (st : HookState) (fenceMax : Nat) : HookState × Nat × List Action :=
  ({ (match st.renderer with
      | some _ => { st with renderer := none }
      | none => st) with
        renderLoop := false, commandQueueGuard := false, dxgiDebug := false },
   fenceMax,
   match st.renderer with
   | some r => (r.cleanup none).2
   | none => ([] : List Action))

/-- Result of the hooked window procedure for one message. -/
inductive WndProcResult where
  /-- The message was handed to `imgui_wnd_proc_impl`, which chains to the
  window procedure captured at activation. -/
  | forwarded (wndProc : Nat)
  /-- `DefWindowProcW` fallback (OS default handling, not the captured
  procedure). -/
  | defWindowProc
deriving DecidableEq

/-- Modelled from the spec: `imgui_wnd_proc_impl` lives in
`src/hooks/common.rs`, which is not under `src/`.  Per the spec it forwards
keyboard/mouse-relevant messages to the overlay input model and then forwards
every message unconditionally to the originally captured procedure. -/
def imgui_wnd_proc_impl (r : ImguiRenderer) : WndProcResult :=
  .forwarded r.wnd_proc

/-- Model of `imgui_wnd_proc` (dx12.rs lines 296-322): the renderer mutex is
taken with `try_lock` (`lockAvailable` says whether it succeeds); a contended
lock or an uninitialized renderer falls back to `DefWindowProcW`. -/
def imgui_wnd_proc (renderer : Option ImguiRenderer) (lockAvailable : Bool) :
    WndProcResult :=
  match renderer with
  | some r => if lockAvailable then imgui_wnd_proc_impl r else .defWindowProc
  | none => .defWindowProc

/-- A sequence of submission interceptions: each element is the submitting
queue and `num_command_lists`. -/
def execMany (st : HookState) :
    List (CommandQueue × Nat) → Except PanicMsg HookState
  | [] => .ok st
  | c :: cs =>
    match imgui_execute_command_lists_impl st c.1 c.2 with
    | .ok p => execMany p.1 cs
    | .error e => .error e

/-- One intercepted call of a hook session, with the environment data the
host supplies to it. -/
inductive HookCall where
  | presentCall (swapChain : Nat) (env : RenderEnv) (newEnv : NewEnv)
      (syncInterval flags : Nat)
  | execCall (q : CommandQueue) (numLists : Nat)
  | resizeCall (bufferCount width height newFormat flags : Nat)
      (swapChain : Nat)
deriving DecidableEq

/-- Dispatch one intercepted call to the corresponding detour model. -/
def sessionStep (st : HookState) (fenceMax : Nat) :
    HookCall → Except PanicMsg (HookState × Nat × List Action)
  | .presentCall sc env ne si fl =>
    imgui_dxgi_swap_chain_present_impl st fenceMax sc env ne si fl
  | .execCall q n =>
    match imgui_execute_command_lists_impl st q n with
    | .ok p => .ok (p.1, fenceMax, p.2)
    | .error e => .error e
  | .resizeCall bc w h fmt fl sc =>
    match imgui_resize_buffers_impl st bc w h fmt fl sc with
    | .ok p => .ok (p.1, fenceMax, p.2)
    | .error e => .error e

/-- Run a list of intercepted calls, accumulating the trace. -/
def sessionRun (st : HookState) (fenceMax : Nat) :
    List HookCall → Except PanicMsg (HookState × Nat × List Action)
  | [] => .ok (st, fenceMax, [])
  | c :: cs =>
    match sessionStep st fenceMax c with
    | .error e => .error e
    | .ok (st1, m1, tr1) =>
      match sessionRun st1 m1 cs with
      | .error e => .error e
      | .ok (st2, m2, tr2) => .ok (st2, m2, tr1 ++ tr2)

/-- The hook state right after `ImguiDx12Hooks::new` (dx12.rs lines 720-766):
trampolines registered, render loop stored, no renderer, queue guard unset. -/
def hookedInit : HookState :=
  { trampoline := true, renderLoop := true, renderer := none,
    commandQueueGuard := false, dxgiDebug := false }

/-- Number of overlay-initialization callback invocations recorded by a
session run. -/
def initCallsOf (r : Except PanicMsg (HookState × Nat × List Action)) : Nat :=
  match r with
  | .ok p => p.2.2.count Action.initCallback
  | .error _ => 0

/-! ### Quiescence machine for `unhook` (claim about the Execution Guards)

`CQECL_RUNNING`, `PRESENT_RUNNING` and `RBUF_RUNNING` are `Fence` values: an
`AtomicBool` set for the dynamic extent of the corresponding detour body and
spin-waited by `unhook`.  The machine below interleaves arbitrary hook-thread
flag writes with the unhook thread, whose program is exactly the source order
of dx12.rs lines 782-809: wait on `CQECL_RUNNING` (pc 0), then
`PRESENT_RUNNING` (pc 1), then `RBUF_RUNNING` (pc 2), then release resources
(pc 3). -/

/-- The three Execution Guards. -/
inductive Guard where
  | cqecl
  | present
  | rbuf
deriving DecidableEq

/-- Position of each guard in the `unhook` wait sequence. -/
def Guard.idx : Guard → Nat
  | .cqecl => 0
  | .present => 1
  | .rbuf => 2

/-- Interleaved state: the three `Fence` flags plus the unhook thread's
program counter (`pc`) and whether resource release has begun. -/
structure UnhookState where
  cqeclRunning : Bool
  presentRunning : Bool
  rbufRunning : Bool
  pc : Nat
  released : Bool
deriving DecidableEq

/-- Read one guard's flag. -/
def UnhookState.busy (s : UnhookState) : Guard → Bool
  | .cqecl => s.cqeclRunning
  | .present => s.presentRunning
  | .rbuf => s.rbufRunning

/-- Write one guard's flag. -/
def UnhookState.setBusy (s : UnhookState) (g : Guard) (b : Bool) : UnhookState :=
  match g with
  | .cqecl => { s with cqeclRunning := b }
  | .present => { s with presentRunning := b }
  | .rbuf => { s with rbufRunning := b }

/-- Interleaving labels: a hook thread entering a detour (`FenceGuard::new`
stores `true`), a hook thread leaving it (the guard's `Drop` stores `false`),
the unhook thread's spin loop observing a guard idle (`Fence::wait`
returning), and the unhook thread beginning resource release. -/
inductive ULabel where
  | hookEnter (g : Guard)
  | hookExit (g : Guard)
  | observeIdle (g : Guard)
  | releaseResources
deriving DecidableEq

/-- One interleaved step.  `observeIdle g` can fire only when the unhook
thread is currently waiting on `g` (in source order) and `g`'s flag is
observed `false`; `releaseResources` can fire only after all three waits. -/
def ustep (s : UnhookState) : ULabel → Option UnhookState
  | .hookEnter g => some (s.setBusy g true)
  | .hookExit g => some (s.setBusy g false)
  | .observeIdle g =>
    if s.pc = g.idx ∧ s.busy g = false then some { s with pc := s.pc + 1 }
    else none
  | .releaseResources =>
    if s.pc = 3 then some { s with pc := 4, released := true } else none

/-- Run a list of interleaved steps. -/
def urun (s : UnhookState) : List ULabel → Option UnhookState
  | [] => some s
  | l :: ls =>
    match ustep s l with
    | some s1 => urun s1 ls
    | none => none

/-- Initial interleaved state: no detour running, unhook at its first wait. -/
def uinit : UnhookState :=
  { cqeclRunning := false, presentRunning := false, rbufRunning := false,
    pc := 0, released := false }

/-! ### Fence machine for one `FrameContext`

Models the per-buffer-index protocol of `ImguiRenderer::render` (dx12.rs
lines 541-580) together with the GPU: `wait_fence` (blocks until
`GetCompletedValue() ≥ fence_val`), `incr` plus the allocator/list resets
(recording begins), and `ExecuteCommandLists`/`Signal`.  The GPU can only
complete values up to the maximum value signalled so far. -/

/-- Phase of the frame-context cycle. -/
inductive FcPhase where
  /-- Between frames: the context's last signalled value is `fence_val`. -/
  | ready
  /-- `wait_fence` has returned for this frame. -/
  | waited
  /-- The context's allocator has been reset and recording is in progress. -/
  | recording
deriving DecidableEq

/-- State of one frame context together with its fence's GPU state and the
process-wide `FENCE_MAX` counter. -/
structure FcState where
  completed : Nat
  signaled : Nat
  fence_val : Nat
  lastSignaled : Nat
  counter : Nat
  phase : FcPhase
deriving DecidableEq

/-- Labels of the frame-context machine. -/
inductive FcLabel where
  /-- `wait_fence` returns: only possible when `completed ≥ fence_val`. -/
  | waitPass
  /-- `incr` then `command_allocator.Reset()`/`command_list.Reset()`:
  recording into this context begins. -/
  | beginRecord
  /-- `ExecuteCommandLists` + `Signal(fence, fence_val)`. -/
  | submitSignal
  /-- The GPU completes one more unit of signalled work. -/
  | gpuAdvance
deriving DecidableEq

/-- One step of the frame-context machine. -/
def fcstep (s : FcState) : FcLabel → Option FcState
  | .waitPass =>
    if s.phase = FcPhase.ready ∧ s.fence_val ≤ s.completed then
      some { s with phase := FcPhase.waited }
    else none
  | .beginRecord =>
    if s.phase = FcPhase.waited then
      some { s with fence_val := s.counter, counter := s.counter + 1,
                    phase := FcPhase.recording }
    else none
  | .submitSignal =>
    if s.phase = FcPhase.recording then
      some { s with signaled := max s.signaled s.fence_val,
                    lastSignaled := s.fence_val, phase := FcPhase.ready }
    else none
  | .gpuAdvance =>
    if s.completed < s.signaled then some { s with completed := s.completed + 1 }
    else none

/-- Run a list of frame-context machine steps. -/
def fcrun (s : FcState) : List FcLabel → Option FcState
  | [] => some s
  | l :: ls =>
    match fcstep s l with
    | some s1 => fcrun s1 ls
    | none => none

/-- Initial frame-context state: `CreateFence(0, ..)` and `fence_val: 0`
(dx12.rs lines 405-406), counter at its initial value `0`. -/
def fcinit : FcState :=
  { completed := 0, signaled := 0, fence_val := 0, lastSignaled := 0,
    counter := 0, phase := FcPhase.ready }

/-- Invariant of the frame-context machine. -/
def fcInv (s : FcState) : Prop :=
  (s.phase = FcPhase.ready → s.fence_val = s.lastSignaled) ∧
  ((s.phase = FcPhase.waited ∨ s.phase = FcPhase.recording) →
    s.lastSignaled ≤ s.completed)

/-- The values handed out by `k` successive `FrameContext::incr` calls
starting from counter value `c`. -/
def allocValues : Nat → Nat → List Nat
  | _, 0 => []
  | c, k + 1 =>
    (FrameContext.incr { fence_val := 0 } c).1.fence_val ::
      allocValues (FrameContext.incr { fence_val := 0 } c).2 k

/-! ## Helper lemmas -/

/-- Once the queue guard is set, a submission interception returns the state
unchanged. -/
theorem captureQueue_guarded (st : HookState) (q : CommandQueue)
    (hg : st.commandQueueGuard = true) : captureQueue st q = st := by
  rw [captureQueue, if_pos hg]

/-- A sequence of submission interceptions after capture leaves the state
unchanged. -/
theorem execMany_captured (st : HookState) (htr : st.trampoline = true)
    (hg : st.commandQueueGuard = true) :
    ∀ cs : List (CommandQueue × Nat), execMany st cs = .ok st := by
  intro cs
  induction cs with
  | nil => rfl
  | cons c tl ih =>
    rw [execMany, imgui_execute_command_lists_impl, if_pos htr,
      captureQueue_guarded st c.1 hg]
    exact ih

/-- A sequence of submission interceptions from non-primary-class queues
leaves the state unchanged (in particular the guard stays unset). -/
theorem execMany_nonprimary (st : HookState) (htr : st.trampoline = true)
    (hg : st.commandQueueGuard = false) :
    ∀ cs : List (CommandQueue × Nat), (∀ c ∈ cs, c.1.qtype ≠ 0) →
      execMany st cs = .ok st := by
  intro cs
  induction cs with
  | nil => intro _; rfl
  | cons c tl ih =>
    intro hall
    have hcap : captureQueue st c.1 = st := by
      rw [captureQueue, if_neg (by simp [hg]), if_pos (hall c (by simp))]
    rw [execMany, imgui_execute_command_lists_impl, if_pos htr, hcap]
    exact ih (fun d hd => hall d (by simp [hd]))

/-! ## C3 — Command Queue Discovery is idempotent -/

/-- C3: once a queue of the direct/graphics class has been captured (queue
guard set), every subsequent submission interception — from a matching or
non-matching queue — leaves the captured queue reference unchanged; a
resize-hook call or `unhook` clears the guard and the renderer that holds the
captured reference.  The first conjunct shows the capture itself: a direct
queue arriving while a renderer exists and the guard is unset is stored and
sets the guard. -/
theorem queue_capture_idempotent (st : HookState) (r : ImguiRenderer)
    (q : CommandQueue) (n m : Nat) (cs : List (CommandQueue × Nat))
    (bc w h fmt fl sc : Nat) (htr : st.trampoline = true) :
    (st.commandQueueGuard = false → st.renderer = some r → q.qtype = 0 →
      imgui_execute_command_lists_impl st q n =
        .ok ({ st with commandQueueGuard := true,
                       renderer := some { r with commandQueue := some q } },
             [Action.callTrampolineExec q n])) ∧
    (st.commandQueueGuard = true → execMany st cs = .ok st) ∧
    (∀ st2 tr, imgui_resize_buffers_impl st bc w h fmt fl sc = .ok (st2, tr) →
      st2.commandQueueGuard = false ∧ st2.renderer = none) ∧
    ((unhook st m).1.commandQueueGuard = false ∧
      (unhook st m).1.renderer = none) := by
  refine ⟨?_, ?_, ?_, ?_⟩
  · intro hg hr hq
    simp [imgui_execute_command_lists_impl, captureQueue, htr, hg, hq, hr]
  · intro hg
    exact execMany_captured st htr hg cs
  · intro st2 tr hok
    cases hr : st.renderer <;>
      simp [imgui_resize_buffers_impl, htr, hr] at hok <;>
      simp [← hok.1, hr]
  · cases hr : st.renderer <;> simp [unhook, hr]

/-- Concrete hook state with a captured queue, used by witnesses. -/
def stCaptured : HookState :=
  { trampoline := true, renderLoop := true,
    renderer := some { commandQueue := some { qtype := 0, qid := 5 },
                       wnd_proc := 7, frameContexts := [{ fence_val := 0 }],
                       swapChain := 1 },
    commandQueueGuard := true, dxgiDebug := false }

/-- Witness for C3 at a concrete captured state and a concrete mixed-class
call sequence. -/
theorem queue_capture_idempotent_witness :
    execMany stCaptured
      [({ qtype := 0, qid := 9 }, 1), ({ qtype := 2, qid := 3 }, 2)] =
      .ok stCaptured :=
  (queue_capture_idempotent stCaptured
    { commandQueue := none, wnd_proc := 7, frameContexts := [], swapChain := 1 }
    { qtype := 0, qid := 9 } 1 0
    [({ qtype := 0, qid := 9 }, 1), ({ qtype := 2, qid := 3 }, 2)]
    2 640 480 0 0 1 rfl).2.1 rfl

/-! ## C4 — resize always runs the original exactly once, after teardown -/

/-- C4: a resize-hook call (with the trampoline registered) invokes the
original resize implementation exactly once, with the unmodified arguments,
as the last recorded action; when a renderer is Active its teardown — with
the window procedure restored to the one captured at the most recent
activation — happens before the original resize runs, and when no renderer is
Active nothing is torn down but the original resize is still invoked.  The
traces are computed exactly, so both the single occurrence and the ordering
are immediate. -/
theorem resize_runs_original_once_after_teardown (st : HookState)
    (bc w h fmt fl sc : Nat) (htr : st.trampoline = true) :
    (∀ r, st.renderer = some r →
      imgui_resize_buffers_impl st bc w h fmt fl sc =
        .ok ({ st with renderer := none, commandQueueGuard := false },
             [Action.restoreWndProc r.wnd_proc,
              Action.callTrampolineResize sc bc w h fmt fl])) ∧
    (st.renderer = none →
      imgui_resize_buffers_impl st bc w h fmt fl sc =
        .ok ({ st with commandQueueGuard := false },
             [Action.callTrampolineResize sc bc w h fmt fl])) := by
  constructor
  · intro r hr
    simp [imgui_resize_buffers_impl, htr, hr, ImguiRenderer.cleanup,
      ImguiRenderer.store_swap_chain]
  · intro hr
    simp [imgui_resize_buffers_impl, htr, hr]

/-- Witness for C4: resize on a concrete Active state restores the captured
window procedure (7) and then invokes the original with the given
arguments. -/
theorem resize_runs_original_once_witness :
    imgui_resize_buffers_impl stCaptured 2 640 480 28 0 1 =
      .ok ({ stCaptured with renderer := none, commandQueueGuard := false },
           [Action.restoreWndProc 7,
            Action.callTrampolineResize 1 2 640 480 28 0]) :=
  (resize_runs_original_once_after_teardown stCaptured 2 640 480 28 0 1
    rfl).1
    { commandQueue := some { qtype := 0, qid := 5 }, wnd_proc := 7,
      frameContexts := [{ fence_val := 0 }], swapChain := 1 } rfl

/-! ## C5 — a draw-data recording failure does not abort the frame -/

/-- C5: when `engine.render_draw_data` fails, the error is logged and the
frame is not aborted: the exact trace shows the transition-back-to-present
barrier, the command-list close, the submission on the captured queue and the
fence signal all still happen, after the logged error, leaving the back
buffer present-ready.  The signalled value and the returned counter are the
wrapping-`u64` counter values `m % 2 ^ 64` and `(m + 1) % 2 ^ 64`. -/
theorem draw_error_frame_still_submitted (r : ImguiRenderer) (m : Nat)
    (sc : Option Nat) (env : RenderEnv) (cq : CommandQueue)
    (fc : FrameContext) (e : String)
    (hcq : r.commandQueue = some cq)
    (hfc : r.frameContexts[env.backBufferIdx]? = some fc)
    (herr : env.drawErr = some e) :
    ∃ r1, r.render m sc env =
      .ok (r1, (m + 1) % 2 ^ 64,
        [Action.newFrame, Action.renderCallback,
         Action.fenceWait env.backBufferIdx fc.fence_val,
         Action.resetAllocator env.backBufferIdx,
         Action.resetList env.backBufferIdx,
         Action.barrierPresentToTarget,
         Action.omSetRenderTargets env.backBufferIdx,
         Action.setDescriptorHeaps,
         Action.renderDrawData env.backBufferIdx,
         Action.logDrawError e,
         Action.barrierTargetToPresent, Action.closeList,
         Action.executeOverlayLists cq,
         Action.signalFence cq (m % 2 ^ 64)]) := by
  refine ⟨{ r.store_swap_chain sc with
      frameContexts := (r.store_swap_chain sc).frameContexts.set
        env.backBufferIdx { fc with fence_val := m % 2 ^ 64 } }, ?_⟩
  simp [ImguiRenderer.render, ImguiRenderer.store_swap_chain, hcq, hfc, herr,
    FrameContext.incr]

/-- Witness for C5 at a concrete renderer, frame index 0 and a concrete
draw-data error. -/
theorem draw_error_frame_still_submitted_witness :
    ∃ r1, ImguiRenderer.render
        { commandQueue := some { qtype := 0, qid := 5 }, wnd_proc := 7,
          frameContexts := [{ fence_val := 3 }], swapChain := 1 }
        4 (some 1) { backBufferIdx := 0, drawErr := some "oom" } =
      .ok (r1, 5,
        [Action.newFrame, Action.renderCallback,
         Action.fenceWait 0 3, Action.resetAllocator 0, Action.resetList 0,
         Action.barrierPresentToTarget, Action.omSetRenderTargets 0,
         Action.setDescriptorHeaps, Action.renderDrawData 0,
         Action.logDrawError "oom",
         Action.barrierTargetToPresent, Action.closeList,
         Action.executeOverlayLists { qtype := 0, qid := 5 },
         Action.signalFence { qtype := 0, qid := 5 } 4]) :=
  draw_error_frame_still_submitted
    { commandQueue := some { qtype := 0, qid := 5 }, wnd_proc := 7,
      frameContexts := [{ fence_val := 3 }], swapChain := 1 }
    4 (some 1) { backBufferIdx := 0, drawErr := some "oom" }
    { qtype := 0, qid := 5 } { fence_val := 3 } "oom" rfl rfl rfl

/-! ## C6 — non-primary queues never capture; null-queue present is safe -/

/-- C6: while every submission interception so far came from queues of a
non-primary class, the state (in particular the unset captured queue) is
unchanged and the submit trampoline is still invoked on each call; a render
in that state logs the null-queue condition and returns early — its whole
trace is the log line, with no recording or submission — and a present-hook
call in that state still invokes the original present. -/
theorem nonprimary_queues_null_queue_skip (st : HookState)
    (r : ImguiRenderer) (q : CommandQueue) (n m : Nat)
    (cs : List (CommandQueue × Nat)) (swapChain : Nat) (env : RenderEnv)
    (ne : NewEnv) (si fl : Nat) (fc : FrameContext)
    (htr : st.trampoline = true) (hg : st.commandQueueGuard = false) :
    (q.qtype ≠ 0 →
      imgui_execute_command_lists_impl st q n =
        .ok (st, [Action.callTrampolineExec q n])) ∧
    ((∀ c ∈ cs, c.1.qtype ≠ 0) → execMany st cs = .ok st) ∧
    (r.commandQueue = none → r.frameContexts[env.backBufferIdx]? = some fc →
      r.render m (some swapChain) env =
        .ok (r.store_swap_chain (some swapChain), m, [Action.logNullQueue])) ∧
    (st.renderer = some r → r.commandQueue = none →
      r.frameContexts[env.backBufferIdx]? = some fc → st.dxgiDebug = false →
      imgui_dxgi_swap_chain_present_impl st m swapChain env ne si fl =
        .ok ({ st with renderer := some (r.store_swap_chain (some swapChain)) },
             m,
             [Action.logNullQueue,
              Action.callTrampolinePresent swapChain si fl])) := by
  refine ⟨?_, execMany_nonprimary st htr hg cs, ?_, ?_⟩
  · intro hq
    rw [imgui_execute_command_lists_impl, if_pos htr, captureQueue,
      if_neg (by simp [hg]), if_pos hq]
  · intro hcq hfc
    simp [ImguiRenderer.render, ImguiRenderer.store_swap_chain, hcq, hfc]
  · intro hr hcq hfc hdbg
    simp [imgui_dxgi_swap_chain_present_impl, htr, hr, hdbg,
      ImguiRenderer.render, ImguiRenderer.store_swap_chain, hcq, hfc]

/-- Concrete hook state whose renderer exists but has no captured queue. -/
def stNullQueue : HookState :=
  { trampoline := true, renderLoop := true,
    renderer := some { commandQueue := none, wnd_proc := 7,
                       frameContexts := [{ fence_val := 0 }], swapChain := 1 },
    commandQueueGuard := false, dxgiDebug := false }

/-- Witness for C6: a present in the null-queue state skips the overlay
render with the logged null-queue condition and still runs the original
present. -/
theorem nonprimary_null_queue_witness :
    imgui_dxgi_swap_chain_present_impl stNullQueue 0 1
      { backBufferIdx := 0, drawErr := none } { bufferCount := 1, prevWndProc := 7 }
      1 0 =
      .ok ({ stNullQueue with
              renderer := some (ImguiRenderer.store_swap_chain
                { commandQueue := none, wnd_proc := 7,
                  frameContexts := [{ fence_val := 0 }], swapChain := 1 }
                (some 1)) },
           0, [Action.logNullQueue, Action.callTrampolinePresent 1 1 0]) :=
  (nonprimary_queues_null_queue_skip stNullQueue
    { commandQueue := none, wnd_proc := 7,
      frameContexts := [{ fence_val := 0 }], swapChain := 1 }
    { qtype := 2, qid := 3 } 1 0 [] 1
    { backBufferIdx := 0, drawErr := none }
    { bufferCount := 1, prevWndProc := 7 } 1 0 { fence_val := 0 }
    rfl rfl).2.2.2 rfl rfl rfl rfl

/-! ## C9 — detours panic without a trampoline, fall through with one -/

/-- C9: each of the three detours panics (`expect` on the `TRAMPOLINE` cell)
when invoked before the trampolines are registered, and whenever the
trampolines are registered every successful detour invocation records the
call to the corresponding original. -/
theorem detour_requires_trampoline (st : HookState) (q : CommandQueue)
    (n m : Nat) (swapChain : Nat) (env : RenderEnv) (ne : NewEnv)
    (si fl bc w h fmt : Nat) :
    (st.trampoline = false →
      imgui_execute_command_lists_impl st q n =
        .error "ID3D12CommandQueue::ExecuteCommandLists trampoline uninitialized" ∧
      imgui_dxgi_swap_chain_present_impl st m swapChain env ne si fl =
        .error "IDXGISwapChain::Present trampoline uninitialized" ∧
      imgui_resize_buffers_impl st bc w h fmt fl swapChain =
        .error "IDXGISwapChain3::ResizeBuffer trampoline uninitialized") ∧
    (st.trampoline = true →
      (imgui_execute_command_lists_impl st q n =
        .ok (captureQueue st q, [Action.callTrampolineExec q n])) ∧
      (∀ st1 m1 tr,
        imgui_dxgi_swap_chain_present_impl st m swapChain env ne si fl =
          .ok (st1, m1, tr) →
        Action.callTrampolinePresent swapChain si fl ∈ tr) ∧
      (∀ st2 tr, imgui_resize_buffers_impl st bc w h fmt fl swapChain =
          .ok (st2, tr) →
        Action.callTrampolineResize swapChain bc w h fmt fl ∈ tr)) := by
  constructor
  · intro htr
    refine ⟨?_, ?_, ?_⟩
    · rw [imgui_execute_command_lists_impl, if_neg (by simp [htr])]
    · rw [imgui_dxgi_swap_chain_present_impl, if_neg (by simp [htr])]
    · rw [imgui_resize_buffers_impl, if_neg (by simp [htr])]
  · intro htr
    refine ⟨?_, ?_, ?_⟩
    · rw [imgui_execute_command_lists_impl, if_pos htr]
    · intro st1 m1 tr hok
      rw [imgui_dxgi_swap_chain_present_impl, if_pos htr] at hok
      split at hok
      · exact absurd hok (by simp)
      · split at hok
        · exact absurd hok (by simp)
        · obtain ⟨-, -, h3⟩ : _ ∧ _ ∧ _ = tr := by simpa using hok
          simp [← h3]
    · intro st2 tr hok
      rw [imgui_resize_buffers_impl, if_pos htr] at hok
      have : tr = (match st.renderer with
          | some r => (r.cleanup (some swapChain)).2
          | none => ([] : List Action))
          ++ [Action.callTrampolineResize swapChain bc w h fmt fl] := by
        simp_all
      simp [this]

/-- Witness for C9: the present detour invoked before hook installation (no
trampoline) panics rather than silently no-opping. -/
theorem detour_requires_trampoline_witness :
    imgui_dxgi_swap_chain_present_impl
      { trampoline := false, renderLoop := false, renderer := none,
        commandQueueGuard := false, dxgiDebug := false }
      0 1 { backBufferIdx := 0, drawErr := none }
      { bufferCount := 1, prevWndProc := 7 } 1 0 =
      .error "IDXGISwapChain::Present trampoline uninitialized" :=
  ((detour_requires_trampoline
    { trampoline := false, renderLoop := false, renderer := none,
      commandQueueGuard := false, dxgiDebug := false }
    { qtype := 0, qid := 0 } 1 0 1 { backBufferIdx := 0, drawErr := none }
    { bufferCount := 1, prevWndProc := 7 } 1 0 2 640 480 28).1 rfl).2.1

/-! ## C7 — the overlay initialization callback across rebuilds -/

/-- Trace decomposition of a successful present-hook call. -/
theorem present_ok_decomp (st : HookState) (m swapChain : Nat)
    (env : RenderEnv) (ne : NewEnv) (si fl : Nat) (st1 : HookState) (m1 : Nat)
    (tr : List Action)
    (hok : imgui_dxgi_swap_chain_present_impl st m swapChain env ne si fl =
      .ok (st1, m1, tr)) :
    ∃ p p2,
      (match st.renderer with
       | some r => Except.ok (r, ([] : List Action))
       | none => ImguiRenderer.new st.renderLoop ne swapChain) = .ok p ∧
      p.1.render m (some swapChain) env = .ok p2 ∧
      st1 = { st with renderer := some p2.1 } ∧ m1 = p2.2.1 ∧
      tr = p.2 ++ p2.2.2
        ++ [Action.callTrampolinePresent swapChain si fl]
        ++ (if st.dxgiDebug then [Action.drainDebugMessages] else []) := by
  rw [imgui_dxgi_swap_chain_present_impl] at hok
  split at hok
  · split at hok
    next e heq => exact absurd hok (by simp)
    next p heq =>
      split at hok
      next e2 heq2 => exact absurd hok (by simp)
      next p2 heq2 =>
        have h' := Except.ok.inj hok
        exact ⟨p, p2, heq, heq2, (congrArg Prod.fst h').symm,
          (congrArg (fun x => x.2.1) h').symm,
          (congrArg (fun x => x.2.2) h').symm⟩
  · exact absurd hok (by simp)

/-- A successful render records no overlay-initialization callback: only
`ImguiRenderer::new` invokes `initialize`. -/
theorem render_no_init (r : ImguiRenderer) (m : Nat) (sc : Option Nat)
    (env : RenderEnv) (p2 : ImguiRenderer × Nat × List Action)
    (h : r.render m sc env = .ok p2) :
    p2.2.2.count Action.initCallback = 0 := by
  rw [ImguiRenderer.render] at h
  split at h
  · exact absurd h (by simp)
  · split at h
    · have h' := Except.ok.inj h
      rw [← h']
      simp
    · have h' := Except.ok.inj h
      rw [← h']
      rcases henv : env.drawErr with _ | e <;> simp [henv]

/-- Counterexample input for the claim that `initialize` runs exactly once
per hook session: present, then resize (which takes the renderer), then
present again (which rebuilds it from scratch). -/
def sessionC7 : List HookCall :=
  [HookCall.presentCall 1 { backBufferIdx := 0, drawErr := none }
     { bufferCount := 1, prevWndProc := 7 } 0 0,
   HookCall.resizeCall 2 640 480 28 0 1,
   HookCall.presentCall 1 { backBufferIdx := 0, drawErr := none }
     { bufferCount := 2, prevWndProc := 7 } 0 0]

/-- Counterexample for C7: within one hook session (no unhook), a
present/resize/present sequence invokes the overlay-initialization callback
twice, not exactly once — the post-resize present rebuilds the renderer via
`ImguiRenderer::new`, which calls `initialize` again. -/
theorem init_callback_twice_after_resize :
    initCallsOf (sessionRun hookedInit 0 sessionC7) = 2 ∧
    initCallsOf (sessionRun hookedInit 0 sessionC7) ≠ 1 := by
  decide

/-- C7 (amended): the overlay-initialization callback runs exactly once per
renderer construction, synchronously before any frame work of that renderer
— a present that finds no renderer constructs one and records `initialize`
exactly once, before everything else in its trace, while a present that finds
an existing renderer never records it.  (The original claim's "exactly once
per hook session" fails across a resize: see the counterexample.) -/
theorem init_once_per_renderer_build (st : HookState) (m : Nat)
    (swapChain : Nat) (env : RenderEnv) (ne : NewEnv) (si fl : Nat) :
    (st.renderer = none →
      ∀ st1 m1 tr,
        imgui_dxgi_swap_chain_present_impl st m swapChain env ne si fl =
          .ok (st1, m1, tr) →
        ∃ rest, tr = [Action.createFrameContexts ne.bufferCount,
                      Action.installWndProc ne.prevWndProc,
                      Action.initCallback] ++ rest ∧
          rest.count Action.initCallback = 0) ∧
    (∀ r, st.renderer = some r →
      ∀ st1 m1 tr,
        imgui_dxgi_swap_chain_present_impl st m swapChain env ne si fl =
          .ok (st1, m1, tr) →
        tr.count Action.initCallback = 0) := by
  constructor
  · intro hr st1 m1 tr hok
    obtain ⟨p, p2, hp, hren, -, -, htr⟩ :=
      present_ok_decomp st m swapChain env ne si fl st1 m1 tr hok
    rw [hr] at hp
    have hp' : ImguiRenderer.new st.renderLoop ne swapChain = Except.ok p := hp
    cases hrl : st.renderLoop
    · rw [hrl, ImguiRenderer.new] at hp'
      exact absurd hp' (by simp)
    · rw [hrl, ImguiRenderer.new, if_pos rfl] at hp'
      have h' := Except.ok.inj hp'
      refine ⟨p2.2.2 ++ [Action.callTrampolinePresent swapChain si fl]
        ++ (if st.dxgiDebug then [Action.drainDebugMessages] else []), ?_, ?_⟩
      · rw [htr, ← h']
        simp
      · have hcount := render_no_init p.1 m (some swapChain) env p2 hren
        cases st.dxgiDebug <;> simp [hcount]
  · intro r hr st1 m1 tr hok
    obtain ⟨p, p2, hp, hren, -, -, htr⟩ :=
      present_ok_decomp st m swapChain env ne si fl st1 m1 tr hok
    rw [hr] at hp
    have hp' : (Except.ok (r, ([] : List Action)) :
        Except PanicMsg (ImguiRenderer × List Action)) = Except.ok p := hp
    have h' := Except.ok.inj hp'
    have hcount := render_no_init p.1 m (some swapChain) env p2 hren
    rw [htr, ← h']
    cases st.dxgiDebug <;> simp [hcount]

/-- Witness for the amended C7: a present on an already-Active concrete state
records no initialization callback. -/
theorem init_once_per_renderer_build_witness :
    ∃ st1 m1 tr,
      imgui_dxgi_swap_chain_present_impl stCaptured 0 1
        { backBufferIdx := 0, drawErr := none }
        { bufferCount := 1, prevWndProc := 7 } 1 0 = .ok (st1, m1, tr) ∧
      tr.count Action.initCallback = 0 :=
  ⟨_, _, _, rfl,
    (init_once_per_renderer_build stCaptured 0 1
      { backBufferIdx := 0, drawErr := none }
      { bufferCount := 1, prevWndProc := 7 } 1 0).2
      { commandQueue := some { qtype := 0, qid := 5 }, wnd_proc := 7,
        frameContexts := [{ fence_val := 0 }], swapChain := 1 } rfl _ _ _ rfl⟩

/-! ## C8 — window-procedure forwarding -/

/-- Counterexample for C8: with an Active renderer whose lock is contended,
the hooked window procedure does not forward the message to the originally
captured procedure (42); it falls back to `DefWindowProcW`. -/
theorem wnd_proc_contended_not_forwarded :
    imgui_wnd_proc
      (some { commandQueue := none, wnd_proc := 42, frameContexts := [],
              swapChain := 0 }) false ≠ WndProcResult.forwarded 42 := by
  decide

/-- C8 (amended): when the renderer exists and its lock is acquired without
contention, the message is forwarded (after overlay input handling) to the
originally captured window procedure; when the lock is contended or the
renderer is not yet initialized, the message goes to `DefWindowProcW` (OS
default handling) instead of the captured procedure. -/
theorem wnd_proc_forwarding_cases (r : ImguiRenderer) :
    imgui_wnd_proc (some r) true = WndProcResult.forwarded r.wnd_proc ∧
    imgui_wnd_proc (some r) false = WndProcResult.defWindowProc ∧
    (∀ b, imgui_wnd_proc none b = WndProcResult.defWindowProc) :=
  ⟨rfl, rfl, fun _ => rfl⟩

/-! ## C10 — the process-wide fence counter -/

/-- Values handed out by successive `incr` calls from counter `c` are
`c, c+1, c+2, ...` as long as the `u64` counter does not wrap over the
allocation window (`c + k ≤ 2 ^ 64`). -/
theorem allocValues_get :
    ∀ (k c i : Nat), i < k → c + k ≤ 2 ^ 64 →
      (allocValues c k)[i]? = some (c + i) := by
  intro k
  induction k with
  | zero => intro c i h _; omega
  | succ k ih =>
    intro c i h hw
    cases i with
    | zero =>
      simp only [allocValues, FrameContext.incr, List.getElem?_cons_zero,
        Option.some.injEq]
      omega
    | succ i =>
      have hc1 : (c + 1) % 2 ^ 64 = c + 1 := Nat.mod_eq_of_lt (by omega)
      have hrec := ih (c + 1) i (by omega) (by omega)
      have h2 : c + 1 + i = c + (i + 1) := by omega
      simp only [allocValues, FrameContext.incr, List.getElem?_cons_succ, hc1]
      rw [hrec, h2]

/-- Counterexample for C10: the `FENCE_MAX` counter is a wrapping `u64`, so
allocated fence values do not strictly increase forever — once the counter
reaches `2 ^ 64 - 1`, the next allocation hands out `2 ^ 64 - 1` and the one
after it wraps to `0`, which is not an increase. -/
theorem fence_counter_wraps_at_u64_max :
    (allocValues (2 ^ 64 - 1) 2)[0]? = some (2 ^ 64 - 1) ∧
    (allocValues (2 ^ 64 - 1) 2)[1]? = some 0 ∧
    ¬ (2 ^ 64 - 1 < (0 : Nat)) := by
  decide

/-- C10 (amended): `FrameContext::incr` assigns the counter's prior value
and increments the process-wide `u64` counter modulo `2 ^ 64`; the allocated
values strictly increase across successive allocations as long as the
counter does not wrap over the allocation window (fewer than `2 ^ 64`
allocations in the process); the very first value ever allocated is `0`,
equal to the `fence_val: 0` of every freshly-constructed `FrameContext`, so
the first `wait_fence` of a fresh context (whose fence starts completed at
`0`) never blocks; and neither `unhook` nor a resize-hook call changes the
counter. -/
theorem fence_counter_monotone_below_wrap (fc : FrameContext)
    (m k i j : Nat) (st : HookState) (sc bc w h fmt fl : Nat)
    (hij : i < j) (hjk : j < k) (hwrap : m + k ≤ 2 ^ 64) :
    ((fc.incr m).1.fence_val = m % 2 ^ 64 ∧
      (fc.incr m).2 = (m + 1) % 2 ^ 64) ∧
    ((allocValues m k)[i]? = some (m + i) ∧
      (allocValues m k)[j]? = some (m + j) ∧ m + i < m + j) ∧
    ((allocValues 0 1)[0]? = some 0) ∧
    (∀ rls r tr,
      ImguiRenderer.new rls { bufferCount := bc, prevWndProc := w } sc =
        .ok (r, tr) → ∀ fc0 ∈ r.frameContexts, fc0.fence_val = 0) ∧
    (FrameContext.waitBlocks { fence_val := 0 } 0 = false) ∧
    ((unhook st m).2.1 = m) ∧
    (∀ st1 m1 tr,
      sessionStep st m (.resizeCall bc w h fmt fl sc) = .ok (st1, m1, tr) →
      m1 = m) := by
  refine ⟨⟨rfl, rfl⟩, ⟨allocValues_get k m i (by omega) hwrap,
    allocValues_get k m j (by omega) hwrap, by omega⟩, by decide, ?_, rfl,
    rfl, ?_⟩
  · intro rls r tr hok fc0 hm
    cases rls
    · rw [ImguiRenderer.new] at hok
      exact absurd hok (by simp)
    · rw [ImguiRenderer.new, if_pos rfl] at hok
      obtain ⟨h1, -⟩ : _ = r ∧ _ = tr := by simpa using hok
      rw [← h1] at hm
      simp only at hm
      have := List.eq_of_mem_replicate hm
      rw [this]
  · intro st1 m1 tr hok
    simp only [sessionStep] at hok
    split at hok
    · obtain ⟨-, h2, -⟩ : _ ∧ m = m1 ∧ _ := by simpa using hok
      exact h2.symm
    · exact absurd hok (by simp)

/-- Witness for the amended C10 at the process's first two allocations. -/
theorem fence_counter_monotone_below_wrap_witness :
    (allocValues 0 2)[0]? = some 0 ∧ (allocValues 0 2)[1]? = some 1 ∧
      (0 : Nat) + 0 < 0 + 1 := by
  have hmono := (fence_counter_monotone_below_wrap { fence_val := 0 } 0 2 0 1
    hookedInit 1 2 640 480 28 0 (by decide) (by decide) (by decide)).2.1
  simpa using hmono

/-! ## C2 — recording never begins before the fence is complete -/

/-- One step of the frame-context machine preserves the invariant. -/
theorem fcstep_inv (s s1 : FcState) (l : FcLabel)
    (h : fcstep s l = some s1) (hs : fcInv s) : fcInv s1 := by
  obtain ⟨h1, h2⟩ := hs
  cases l with
  | waitPass =>
    rw [fcstep] at h
    split at h
    · next hc =>
      have hs1 := Option.some.inj h
      rw [← hs1]
      refine ⟨by simp, ?_⟩
      intro _
      have := h1 hc.1
      simp only
      omega
    · exact absurd h (by simp)
  | beginRecord =>
    rw [fcstep] at h
    split at h
    · next hc =>
      have hs1 := Option.some.inj h
      rw [← hs1]
      refine ⟨by simp, ?_⟩
      intro _
      exact h2 (Or.inl hc)
    · exact absurd h (by simp)
  | submitSignal =>
    rw [fcstep] at h
    split at h
    · next hc =>
      have hs1 := Option.some.inj h
      rw [← hs1]
      exact ⟨fun _ => rfl, by simp⟩
    · exact absurd h (by simp)
  | gpuAdvance =>
    rw [fcstep] at h
    split at h
    · next hc =>
      have hs1 := Option.some.inj h
      rw [← hs1]
      refine ⟨h1, ?_⟩
      intro hph
      have := h2 hph
      simp only
      omega
    · exact absurd h (by simp)

/-- Runs of the frame-context machine preserve the invariant. -/
theorem fcrun_inv :
    ∀ (tr : List FcLabel) (s s' : FcState),
      fcrun s tr = some s' → fcInv s → fcInv s' := by
  intro tr
  induction tr with
  | nil =>
    intro s s' h hs
    rw [fcrun] at h
    rw [← Option.some.inj h]
    exact hs
  | cons l tl ih =>
    intro s s' h hs
    rw [fcrun] at h
    rcases hstep : fcstep s l with _ | s1
    · rw [hstep] at h
      exact absurd h (by simp)
    · rw [hstep] at h
      exact ih s1 s' h (fcstep_inv s s1 l hstep hs)

/-- C2: in every reachable state of the frame-context machine, if recording
into the context is in progress then the fence value the context was last
signaled with has been observed as completed by the GPU; moreover the wait
step can never fire (the render path stays blocked on the fence event) while
the completed value is still below the context's fence value. -/
theorem recording_waits_for_fence (tr : List FcLabel) (s : FcState)
    (hrun : fcrun fcinit tr = some s) :
    (s.phase = FcPhase.recording → s.lastSignaled ≤ s.completed) ∧
    (∀ u : FcState, u.completed < u.fence_val →
      fcstep u FcLabel.waitPass = none) := by
  constructor
  · intro hph
    have hinv := fcrun_inv tr fcinit s hrun (by constructor <;> simp [fcinit])
    exact hinv.2 (Or.inr hph)
  · intro u hu
    rw [fcstep, if_neg]
    rintro ⟨-, h2⟩
    omega

/-- Witness for C2: a concrete three-frame interleaving (two frames recorded
and signalled, one GPU completion, then a third recording) reaches a
recording state whose last-signaled value 1 is completed. -/
theorem recording_waits_for_fence_witness :
    ({ completed := 1, signaled := 1, fence_val := 2, lastSignaled := 1,
       counter := 3, phase := FcPhase.recording } : FcState).lastSignaled ≤
      ({ completed := 1, signaled := 1, fence_val := 2, lastSignaled := 1,
         counter := 3, phase := FcPhase.recording } : FcState).completed :=
  (recording_waits_for_fence
    [FcLabel.waitPass, FcLabel.beginRecord, FcLabel.submitSignal,
     FcLabel.waitPass, FcLabel.beginRecord, FcLabel.submitSignal,
     FcLabel.gpuAdvance, FcLabel.waitPass, FcLabel.beginRecord]
    { completed := 1, signaled := 1, fence_val := 2, lastSignaled := 1,
      counter := 3, phase := FcPhase.recording }
    (by decide)).1 rfl

/-! ## C1 — unhook observes every guard idle before releasing resources -/

/-- The wait positions of the three guards are distinct. -/
theorem Guard.idx_injective : ∀ g g' : Guard, g.idx = g'.idx → g = g' := by
  intro g g'
  cases g <;> cases g' <;> simp [Guard.idx]

/-- Each guard's wait position is at most 2. -/
theorem Guard.idx_le_two : ∀ g : Guard, g.idx ≤ 2 := by
  intro g
  cases g <;> decide

/-- Flag writes do not move the unhook thread's program counter. -/
theorem setBusy_pc (s : UnhookState) (g : Guard) (b : Bool) :
    (s.setBusy g b).pc = s.pc := by
  cases g <;> rfl

/-- Main induction: in any valid interleaving starting from a state whose
unhook thread has not yet passed guard `g`'s wait, a `releaseResources` step
at position `i` is preceded by an `observeIdle g` step at some position
`j < i`, and at that step `g`'s flag was observed `false`. -/
theorem urun_release_observed (g : Guard) :
    ∀ (tr : List ULabel) (s s' : UnhookState),
      urun s tr = some s' → s.pc ≤ g.idx →
      ∀ i, tr[i]? = some ULabel.releaseResources →
      ∃ j, j < i ∧ tr[j]? = some (ULabel.observeIdle g) ∧
        ∀ sj, urun s (tr.take j) = some sj → sj.busy g = false := by
  intro tr
  induction tr with
  | nil =>
    intro s s' _ _ i hi
    simp at hi
  | cons l tl ih =>
    intro s s' hrun hpc i hi
    rcases hstep : ustep s l with _ | s1
    · rw [urun, hstep] at hrun
      exact absurd hrun (by simp)
    · rw [urun, hstep] at hrun
      cases i with
      | zero =>
        simp only [List.getElem?_cons_zero, Option.some.injEq] at hi
        subst hi
        rw [ustep] at hstep
        split at hstep
        · next h3 =>
          have := Guard.idx_le_two g
          omega
        · exact absurd hstep (by simp)
      | succ i' =>
        simp only [List.getElem?_cons_succ] at hi
        cases l with
        | hookEnter g' =>
          have hs1 : s1 = s.setBusy g' true := (Option.some.inj hstep).symm
          have hpc1 : s1.pc ≤ g.idx := by
            rw [hs1, setBusy_pc]; exact hpc
          obtain ⟨j, hj, hjl, hjb⟩ := ih s1 s' hrun hpc1 i' hi
          refine ⟨j + 1, by omega, by simpa using hjl, ?_⟩
          intro sj hsj
          apply hjb
          rw [List.take_succ_cons, urun, hstep] at hsj
          exact hsj
        | hookExit g' =>
          have hs1 : s1 = s.setBusy g' false := (Option.some.inj hstep).symm
          have hpc1 : s1.pc ≤ g.idx := by
            rw [hs1, setBusy_pc]; exact hpc
          obtain ⟨j, hj, hjl, hjb⟩ := ih s1 s' hrun hpc1 i' hi
          refine ⟨j + 1, by omega, by simpa using hjl, ?_⟩
          intro sj hsj
          apply hjb
          rw [List.take_succ_cons, urun, hstep] at hsj
          exact hsj
        | observeIdle g' =>
          have hstep0 := hstep
          rw [ustep] at hstep
          split at hstep
          · next hcond =>
            have hs1 : s1 = { s with pc := s.pc + 1 } :=
              (Option.some.inj hstep).symm
            by_cases hgg : g' = g
            · subst hgg
              refine ⟨0, by omega, by simp, ?_⟩
              intro sj hsj
              rw [List.take_zero, urun] at hsj
              rw [← Option.some.inj hsj]
              exact hcond.2
            · have hne : g.idx ≠ s.pc := by
                intro hEq
                exact hgg (Guard.idx_injective g' g (by omega))
              have hpc1 : s1.pc ≤ g.idx := by
                rw [hs1]
                simp only
                omega
              obtain ⟨j, hj, hjl, hjb⟩ := ih s1 s' hrun hpc1 i' hi
              refine ⟨j + 1, by omega, by simpa using hjl, ?_⟩
              intro sj hsj
              apply hjb
              rw [List.take_succ_cons, urun, hstep0] at hsj
              exact hsj
          · exact absurd hstep (by simp)
        | releaseResources =>
          rw [ustep] at hstep
          split at hstep
          · next h3 =>
            have := Guard.idx_le_two g
            omega
          · exact absurd hstep (by simp)

/-- C1: for every interleaving of concurrent present/submit/resize hook
calls (flag writes) with the unhook thread, if resource release begins
(`releaseResources` fires at position `i`), then every Execution Guard was
observed idle at some earlier position `j < i`: an `observeIdle g` step
occurred there, and the state just before it had `g`'s flag `false`. -/
theorem unhook_observes_idle_before_release (tr : List ULabel)
    (s' : UnhookState) (hrun : urun uinit tr = some s') (i : Nat)
    (hi : tr[i]? = some ULabel.releaseResources) (g : Guard) :
    ∃ j, j < i ∧ tr[j]? = some (ULabel.observeIdle g) ∧
      ∀ sj, urun uinit (tr.take j) = some sj → sj.busy g = false :=
  urun_release_observed g tr uinit s' hrun (by cases g <;> simp [uinit, Guard.idx])
    i hi

/-- Concrete interleaving for the C1 witness: a present call runs and
finishes while unhook is waiting, then the three waits observe idle in
source order and release fires. -/
def utraceC1 : List ULabel :=
  [ULabel.hookEnter Guard.present, ULabel.observeIdle Guard.cqecl,
   ULabel.hookExit Guard.present, ULabel.observeIdle Guard.present,
   ULabel.observeIdle Guard.rbuf, ULabel.releaseResources]

/-- Witness for C1 on the concrete interleaving `utraceC1`, for the present
guard. -/
theorem unhook_observes_idle_witness :
    ∃ j, j < 5 ∧ utraceC1[j]? = some (ULabel.observeIdle Guard.present) :=
  (unhook_observes_idle_before_release utraceC1
    { cqeclRunning := false, presentRunning := false, rbufRunning := false,
      pc := 4, released := true }
    (by decide) 5 (by decide) Guard.present).imp
    (fun _ h => ⟨h.1, h.2.1⟩)

end HudhookDx12
